import Mathlib

/-!
Verification of the Helix frontend client logic: chat orchestration,
real-time sequence synchronization, sequence editing, CSV candidate
ingestion and personalization templating.  The definitions below are a
shallow embedding of the handlers in `frontend/src/App.tsx`,
`frontend/src/components/ChatBar.tsx`,
`frontend/src/components/Workspace.tsx` and
`frontend/src/components/SocketContext.tsx`.  Nondeterministic inputs of
the source (the value of `Date.now().toString()` / `new
Date().toISOString()`) are passed explicitly as a `now : String`
parameter; JSON decoding results are passed as `Option`-shaped payloads
(`none` models a thrown `JSON.parse` error); JavaScript truthiness on
string fields (`if (x)`) is modelled by `truthyStr` (absent or empty
string is falsy).
-/

namespace Helix

/-- Model of `Message` from App.tsx: `{id, text, sender, timestamp}`.  Both `id` and
`timestamp` come from the clock at creation time, passed in as `now`. -/
structure Message where
  id : String
  text : String
  sender : String
  timestamp : String
deriving DecidableEq, Repr

/-- Model of `SequenceStep` from App.tsx / Workspace.tsx. -/
structure SequenceStep where
  id : String
  type : String
  content : String
  delay : Int
  personalization_tips : Option String
deriving DecidableEq, Repr

/-- Model of `SequenceMetadata` from App.tsx (second revision, with the optional
fields). -/
structure SequenceMetadata where
  role : String
  industry : String
  seniority : String
  company_type : String
  generated_at : String
  campaign_idea : Option String := none
  company_culture : Option String := none
  includes_interview_steps : Option Bool := none
deriving DecidableEq, Repr

/-- Model of `Sequence` from App.tsx: metadata plus the ordered step list. -/
structure Sequence where
  metadata : SequenceMetadata
  steps : List SequenceStep
deriving DecidableEq, Repr

/-- The client state owned by `App` (messages, sequence, loading flag)
together with the connection flag owned by `SocketContext`. -/
structure AppState where
  messages : List Message
  sequence : Option Sequence
  isConnected : Bool
  isLoading : Bool
deriving DecidableEq, Repr

/-- Outbound socket events emitted by the modelled handlers. -/
inductive OutEvent where
  | chat_message (message : String) (current_sequence : List SequenceStep)
  | sequence_update (sequence : List SequenceStep)
  | get_chat_history
deriving DecidableEq, Repr

/-- JavaScript truthiness of an optional string field: `undefined`/absent
and `""` are falsy, every other string is truthy. -/
def truthyStr : Option String → Bool
  | some s => s ≠ ""
  | none => false

/-- The default metadata synthesized by App.tsx when a steps payload
arrives and no sequence exists (`generated_at: new Date().toISOString()`
is the `now` parameter). -/
def defaultMetadata (now : String) : SequenceMetadata :=
  { role := "Recruiting"
    industry := "Technology"
    seniority := "Mid-Level"
    company_type := "Enterprise"
    generated_at := now }

/-- A user chat bubble as built in `handleSendMessage`. -/
def userMsg (now text : String) : Message :=
  { id := now, text := text, sender := "user", timestamp := now }

/-- An AI chat bubble as built in the socket handlers. -/
def aiMsg (now text : String) : Message :=
  { id := now, text := text, sender := "ai", timestamp := now }

/-- The canned apology appended by the outer catch of the `chat_response`
handler. -/
def apologyText : String :=
  "I apologize, but I encountered an error processing the response."

/-- The canned confirmation appended after a refinement. -/
def refinedText : String :=
  "I've refined the sequence step based on your feedback."

/-- ASCII lower-casing of one character (JS `toLowerCase` restricted to
the ASCII range used by CSV headers). -/
def lowerChar (c : Char) : Char :=
  if 'A' ≤ c && c ≤ 'Z' then Char.ofNat (c.toNat + 32) else c

/-- Lower-case a string, character by character. -/
def lowerStr (s : String) : String := String.mk (s.toList.map lowerChar)

/-- Whitespace characters stripped by JS `String.prototype.trim` (ASCII
subset actually occurring in this application's inputs). -/
def isJsWhitespace (c : Char) : Bool :=
  c = ' ' || c = '\t' || c = '\n' || c = '\r'

/-- JS `String.prototype.trim`: strip whitespace from both ends. -/
def jsTrim (s : String) : String :=
  String.mk (((s.toList.dropWhile isJsWhitespace).reverse.dropWhile
    isJsWhitespace).reverse)

/-- JS `String.prototype.split` on a one-character separator: always
returns at least one (possibly empty) piece. -/
def splitOnChar (sep : Char) : List Char → List (List Char)
  | [] => [[]]
  | c :: rest =>
    if c = sep then [] :: splitOnChar sep rest
    else
      match splitOnChar sep rest with
      | [] => [[c]]
      | h :: t => (c :: h) :: t

/-- String-level wrapper for `splitOnChar`. -/
def jsSplit (sep : Char) (s : String) : List String :=
  (splitOnChar sep s.toList).map String.mk

/-- Model of `sequence?.steps || []` from `handleSendMessage`. -/
def currentSequenceSteps : Option Sequence → List SequenceStep
  | some q => q.steps
  | none => []

/-- Model of `handleSendMessage` (App.tsx, lines 671-688): rejected while
disconnected; otherwise appends one `user` Message, sets the loading
flag and emits `chat_message` with the current steps as context. -/
def handleSendMessage (st : AppState) (message : String) (now : String) :
    AppState × List OutEvent :=
  if !st.isConnected then (st, [])
  else
    ({ st with
        messages := st.messages ++ [userMsg now message]
        isLoading := true },
     [OutEvent.chat_message message (currentSequenceSteps st.sequence)])

/-- Model of `handleSubmit` (ChatBar.tsx, lines 194-200) composed with
`onSendMessage = handleSendMessage`: only fires when the trimmed text is
non-empty, the channel is connected and no response is pending; the text
actually submitted is the trimmed text. -/
def handleSubmit (st : AppState) (message : String) (now : String) :
    AppState × List OutEvent :=
  if jsTrim message ≠ "" && st.isConnected && !st.isLoading then
    handleSendMessage st (jsTrim message) now
  else (st, [])

/-- Model of `handleSequenceUpdate` (App.tsx, lines 690-720): no-op when
disconnected or when no sequence exists; otherwise keeps metadata,
replaces the steps, and emits `sequence_update` with the full new step
array. -/
def handleSequenceUpdate (st : AppState) (updatedSteps : List SequenceStep) :
    AppState × List OutEvent :=
  if !st.isConnected then (st, [])
  else
    match st.sequence with
    | none => (st, [])
    | some q =>
      ({ st with sequence := some { q with steps := updatedSteps } },
       [OutEvent.sequence_update updatedSteps])

/-- Result of one `emitEvent` call in SocketContext.tsx: the events
actually handed to `socket.emit`, whether the disconnected warning was
logged, and the boolean return value. -/
structure EmitResult where
  emitted : List OutEvent
  warned : Bool
  returned : Bool
deriving DecidableEq, Repr

/-- Model of `emitEvent` (SocketContext.tsx, lines 97-115): refuses only when the
socket object is null; when the socket exists but is disconnected it
logs a warning and still forwards the event to `socket.emit`. -/
def emitEvent (socketExists : Bool) (isConnected : Bool) (event : OutEvent) :
    EmitResult :=
  if !socketExists then { emitted := [], warned := false, returned := false }
  else { emitted := [event], warned := !isConnected, returned := true }

/-- The decoded `data` field of a `sequence_updated` event: absent/null,
a bare step array, or an object possibly carrying `metadata` and
`steps` fields. -/
inductive SeqUpdatedData where
  | null
  | array (steps : List SequenceStep)
  | object (metadata : Option SequenceMetadata) (steps : Option (List SequenceStep))
deriving DecidableEq, Repr

/-- Shared shape of the two steps-only branches of `sequence_updated`
(and of the `edit_sequence_step` branch of `chat_response`): keep the
existing metadata if a sequence exists, otherwise synthesize the
default metadata. -/
def mergeSteps (st : AppState) (now : String) (s : List SequenceStep) :
    Option Sequence :=
  match st.sequence with
  | some q => some { q with steps := s }
  | none => some { metadata := defaultMetadata now, steps := s }

/-- Model of the `sequence_updated` handler (App.tsx, lines 560-624). -/
def sequenceUpdated (st : AppState) (data : SeqUpdatedData) (now : String) :
    AppState :=
  match data with
  | .null => st
  | .array s => { st with sequence := mergeSteps st now s }
  | .object m? s? =>
    match m?, s? with
    | some m, some s => { st with sequence := some { metadata := m, steps := s } }
    | none, some s => { st with sequence := mergeSteps st now s }
    | _, none => st

/-- The payload of a `step_refined` event. -/
structure StepRefinedData where
  step_id : Option String
  refined_content : Option String
deriving DecidableEq, Repr

/-- Model of the `step_refined` handler (App.tsx, lines 627-648): only acts when both
fields are truthy and a sequence exists; replaces the matching step's
content in place and appends the canned refined Message. -/
def stepRefined (st : AppState) (data : StepRefinedData) (now : String) :
    AppState :=
  match data.step_id, data.refined_content, st.sequence with
  | some sid, some rc, some q =>
    if sid ≠ "" && rc ≠ "" then
      { st with
        sequence := some { q with steps := q.steps.map (fun s =>
          if s.id = sid then { s with content := rc } else s) }
        messages := st.messages ++ [aiMsg now refinedText] }
    else st
  | _, _, _ => st

/-- Model of the `llm_response` sub-object of a decoded chat envelope. -/
structure LlmResponse where
  action : Option String
deriving DecidableEq, Repr

/-- The possible fields of a successfully decoded `tool_result` (it is
itself JSON text requiring a second decode; the `generate_sequence`
branch reads `metadata`/`steps`, the `edit_sequence_step` branch reads
`status`/`sequence`). -/
structure ToolParsed where
  metadata : Option SequenceMetadata
  steps : Option (List SequenceStep)
  status : Option String
  sequence : Option (List SequenceStep)
deriving DecidableEq, Repr

/-- Model of a `tool_result` field: its raw string value, plus the result of the
nested `JSON.parse` (`none` models a thrown decode error). -/
structure ToolResultField where
  raw : String
  parsed : Option ToolParsed
deriving DecidableEq, Repr

/-- Model of a decoded `chat_response` envelope
`{status, chat_response?, llm_response?, tool_result?, error?}`. -/
structure Envelope where
  status : Option String
  chat_response : Option String
  llm_response : Option LlmResponse
  tool_result : Option ToolResultField
  error : Option String
deriving DecidableEq, Repr

/-- Model of `responseData.llm_response?.action === a` (optional chaining). -/
def actionIs (env : Envelope) (a : String) : Bool :=
  match env.llm_response with
  | some l => l.action = some a
  | none => false

/-- Truthiness of the `tool_result` field (a string: absent or empty is
falsy). -/
def truthyTool : Option ToolResultField → Bool
  | some tr => tr.raw ≠ ""
  | none => false

/-- The raw string of the `tool_result` field (used verbatim as a chat
bubble by the last branch). -/
def rawOfTool : Option ToolResultField → String
  | some tr => tr.raw
  | none => ""

/-- Model of the `chat_response` handler (App.tsx, lines 432-546).  `parsedData` is
the result of `JSON.parse(data.data)`, `none` modelling a thrown decode
error caught by the outer catch.  The handler never emits, so the event
list is always empty. -/
def chatResponse (st : AppState) (parsedData : Option Envelope) (now : String) :
    AppState × List OutEvent :=
  let st0 := { st with isLoading := false }
  match parsedData with
  | none => ({ st0 with messages := st0.messages ++ [aiMsg now apologyText] }, [])
  | some env =>
    if env.status = some "success" then
      let st1 :=
        if truthyStr env.chat_response then
          { st0 with
            messages := st0.messages ++ [aiMsg now (env.chat_response.getD "")] }
        else st0
      if actionIs env "generate_sequence" && truthyTool env.tool_result then
        match env.tool_result.bind ToolResultField.parsed with
        | some tp =>
          match tp.metadata, tp.steps with
          | some m, some s =>
            ({ st1 with sequence := some { metadata := m, steps := s } }, [])
          | _, _ => (st1, [])
        | none => (st1, [])
      else if actionIs env "edit_sequence_step" && truthyTool env.tool_result then
        match env.tool_result.bind ToolResultField.parsed with
        | some tp =>
          if tp.status = some "success" && tp.sequence.isSome then
            match tp.sequence with
            | some sq => ({ st1 with sequence := mergeSteps st1 now sq }, [])
            | none => (st1, [])
          else (st1, [])
        | none => (st1, [])
      else if actionIs env "modify_sequence" && !truthyStr env.chat_response then
        ({ st1 with messages := st1.messages ++ [aiMsg now refinedText] }, [])
      else if truthyTool env.tool_result && !truthyStr env.chat_response then
        ({ st1 with messages := st1.messages ++ [aiMsg now (rawOfTool env.tool_result)] }, [])
      else (st1, [])
    else if truthyStr env.error then
      ({ st0 with messages := st0.messages ++ [aiMsg now ("Error: " ++ env.error.getD "")] }, [])
    else (st0, [])

/-- Model of the JS spread merge of `step` with `newStep` used by the edit branch of
`handleSaveStep`: fields present on `newStep` override; the dialog state
always carries `id`/`type`/`content`/`delay`, while
`personalization_tips` may be absent. -/
def mergeStep (s n : SequenceStep) : SequenceStep :=
  { id := n.id, type := n.type, content := n.content, delay := n.delay
    personalization_tips :=
      match n.personalization_tips with
      | some t => some t
      | none => s.personalization_tips }

/-- The dialog's initial new-step state (Workspace.tsx): default type
`email`, delay `0`, empty content, id from the clock. -/
def initialNewStep (now : String) : SequenceStep :=
  { id := now, type := "email", content := "", delay := 0
    personalization_tips := some "" }

/-- Model of `handleSaveStep` (Workspace.tsx, lines 153-166): returns the step
list passed to `onSequenceUpdate`, or `none` when the save is rejected
(empty content or no sequence).  Adding overrides the id with a fresh
clock value `now`. -/
def handleSaveStep (sequence : Option Sequence) (editingStep : Option SequenceStep)
    (newStep : SequenceStep) (now : String) : Option (List SequenceStep) :=
  match sequence with
  | none => none
  | some q =>
    if newStep.content = "" then none
    else
      some (match editingStep with
        | some e => q.steps.map (fun s => if s.id = e.id then mergeStep s newStep else s)
        | none => q.steps ++ [{ newStep with id := now }])

/-- Model of `handleDeleteStep` (Workspace.tsx, lines 168-171). -/
def handleDeleteStep (sequence : Option Sequence) (id : String) :
    Option (List SequenceStep) :=
  match sequence with
  | none => none
  | some q => some (q.steps.filter (fun s => s.id ≠ id))

/-- Fuel-indexed global string replacement: the semantics of JS
`str.replace(new RegExp(pat, 'g'), rep)` for a literal pattern `pat` —
scan left to right, replace each non-overlapping occurrence, never
rescanning replaced text.  Fuel `s.length` is always sufficient because
each step consumes at least one character; with fuel `0` the remaining
suffix is returned unchanged. -/
def replaceAllAux (pat rep : List Char) : Nat → List Char → List Char
  | 0, s => s
  | _ + 1, [] => []
  | n + 1, c :: rest =>
    if !pat.isEmpty && pat.isPrefixOf (c :: rest) then
      rep ++ replaceAllAux pat rep n (List.drop (pat.length - 1) rest)
    else
      c :: replaceAllAux pat rep n rest

/-- Global replacement of one literal pattern. -/
def replaceAllL (pat rep s : List Char) : List Char :=
  replaceAllAux pat rep s.length s

/-- The literal regex source built by `previewPersonalizedEmail` for a
candidate key. -/
def placeholderOf (key : String) : List Char :=
  '{' :: (key.toList ++ ['}'])

/-- Model of `previewPersonalizedEmail` (Workspace.tsx, lines 232-241): fold the
candidate's entries in object order, globally replacing each entry's
placeholder in the accumulated string. -/
def personalize (template : String) (candidate : List (String × String)) :
    String :=
  candidate.foldl
    (fun acc kv => String.mk (replaceAllL (placeholderOf kv.1) kv.2.toList acc.toList))
    template

/-- Decidable occurrence of a pattern as a contiguous substring. -/
def occursIn (pat : List Char) : List Char → Bool
  | [] => pat.isEmpty
  | c :: rest => pat.isPrefixOf (c :: rest) || occursIn pat rest

/-- A candidate record: ordered key/value pairs, mirroring JS object
property order (insertion order, assignments to an existing key keep its
position). -/
abbrev Candidate := List (String × String)

/-- Model of JS object property assignment into `candidate`: overwrite in place
when the key exists, append otherwise. -/
def setField : Candidate → String → String → Candidate
  | [], k, v => [(k, v)]
  | (k0, v0) :: rest, k, v =>
    if k0 = k then (k, v) :: rest else (k0, v0) :: setField rest k v

/-- JS object property read (with `""` for a missing key, matching the
initial `{name:'', email:''}` shape for the two required fields). -/
def getField (c : Candidate) (k : String) : String :=
  match c.find? (fun kv => kv.1 = k) with
  | some kv => kv.2
  | none => ""

/-- The `headers.forEach` assignment loop of `handleFileUpload`: each
header (lower-cased) takes the value at its index when the row is long
enough — i.e. a positional zip. -/
def assignFields (headers values : List String) : Candidate :=
  (headers.zip values).foldl (fun c hv => setField c (lowerStr hv.1) hv.2)
    [("name", ""), ("email", "")]

/-- Model of the `handleFileUpload` parsing core (Workspace.tsx, lines 179-210):
split on newlines, trim-split the header row on commas, parse each
subsequent non-blank row positionally, keep a row only when both `name`
and `email` end up non-empty. -/
def parseCSV (text : String) : List Candidate :=
  let lines := jsSplit '\n' text
  let headers := (jsSplit ',' (lines.headD "")).map jsTrim
  (lines.drop 1).filterMap (fun line =>
    if jsTrim line = "" then none
    else
      let values := (jsSplit ',' line).map jsTrim
      let candidate := assignFields headers values
      if getField candidate "name" ≠ "" && getField candidate "email" ≠ "" then
        some candidate
      else none)

end Helix

namespace Helix

/-- Positional constructor for `AppState`, used to write concrete states
compactly in witnesses and counterexamples. -/
def mkState (ms : List Message) (sq : Option Sequence)
    (conn loading : Bool) : AppState :=
  { messages := ms, sequence := sq, isConnected := conn, isLoading := loading }

/-- The metadata the `sequence_updated` handler keeps for a steps-only
payload: the existing one when a sequence exists, the synthesized
default otherwise. -/
def keptMetadata (st : AppState) (now : String) : SequenceMetadata :=
  match st.sequence with
  | some q => q.metadata
  | none => defaultMetadata now

/-- C2: every `sequence_updated` payload shaped as a bare array, as
`\x7bsteps\x7d`, or as a full `\x7bmetadata, steps\x7d` object leaves the client
with a Sequence whose metadata and steps are both populated: the
existing metadata is kept (or the default synthesized) for the two
steps-only shapes, and the incoming sequence replaces the state
wholesale for the full shape. -/
theorem c2_sequence_updated (st : AppState) (now : String)
    (m : SequenceMetadata) (s : List SequenceStep) :
    (sequenceUpdated st (.array s) now).sequence =
        some { metadata := keptMetadata st now, steps := s }
    ∧ (sequenceUpdated st (.object (some m) (some s)) now).sequence =
        some { metadata := m, steps := s }
    ∧ (sequenceUpdated st (.object none (some s)) now).sequence =
        some { metadata := keptMetadata st now, steps := s } := by
  refine ⟨?_, by simp [sequenceUpdated], ?_⟩ <;>
    cases h : st.sequence <;>
      simp [sequenceUpdated, mergeSteps, keptMetadata, h]

/-- C1 counterexample: a non-empty message submitted while connected is
rejected (zero Messages appended, no event) when a response is still
pending, and a message with surrounding whitespace is appended with the
trimmed text rather than the submitted text. -/
theorem c1_counterexample :
    handleSubmit (mkState [] none true true) "hi" "1" =
      (mkState [] none true true, [])
    ∧ (handleSubmit (mkState [] none true false) " hi " "1").1.messages =
        [userMsg "1" "hi"]
    ∧ userMsg "1" "hi" ≠ userMsg "1" " hi " := by decide

/-- C1 (amended): a submission with non-empty trimmed text, made while
connected and while no response is pending, appends exactly one `user`
Message carrying the trimmed text, sets the loading flag and emits one
`chat_message` event; a submission while disconnected, while loading,
or with whitespace-only text changes nothing and emits nothing. -/
theorem c1_submission (st : AppState) (m now : String) :
    (jsTrim m ≠ "" → st.isConnected = true → st.isLoading = false →
      handleSubmit st m now =
        (mkState (st.messages ++ [userMsg now (jsTrim m)]) st.sequence
           st.isConnected true,
         [OutEvent.chat_message (jsTrim m) (currentSequenceSteps st.sequence)]))
    ∧ ((st.isConnected = false ∨ st.isLoading = true ∨ jsTrim m = "") →
        handleSubmit st m now = (st, [])) := by
  constructor
  · intro h1 h2 h3
    simp [handleSubmit, handleSendMessage, mkState, h1, h2, h3]
  · rintro (h | h | h) <;> simp [handleSubmit, handleSendMessage, h]

/-- C1 witness: a concrete successful submission. -/
theorem c1_submission_witness :
    handleSubmit (mkState [] none true false) "hello" "7" =
      (mkState [userMsg "7" (jsTrim "hello")] none true true,
       [OutEvent.chat_message (jsTrim "hello") []]) :=
  (c1_submission (mkState [] none true false) "hello" "7").1
    (by decide) rfl rfl

/-- C5 counterexample: with a live socket object and the connection flag
false, `emitEvent` still forwards the event to `socket.emit` (and
returns true), so the channel does emit while disconnected. -/
theorem c5_counterexample :
    emitEvent true false OutEvent.get_chat_history =
      { emitted := [OutEvent.get_chat_history], warned := true,
        returned := true } := by decide

/-- C5 (amended): while disconnected, the App-level outbound actions
(chat submission, sequence update) are no-ops — nothing is appended,
emitted or queued; the channel's `emitEvent`, however, only refuses when
the socket object is null: with a live socket it logs a warning but
still forwards the event immediately (no buffering). -/
theorem c5_disconnected (st : AppState) (m now : String)
    (steps : List SequenceStep) (e : OutEvent)
    (h : st.isConnected = false) :
    handleSendMessage st m now = (st, [])
    ∧ handleSequenceUpdate st steps = (st, [])
    ∧ emitEvent true false e =
        { emitted := [e], warned := true, returned := true }
    ∧ emitEvent false false e =
        { emitted := [], warned := false, returned := false } := by
  refine ⟨?_, ?_, rfl, rfl⟩ <;>
    simp [handleSendMessage, handleSequenceUpdate, h]

/-- C5 witness: a concrete disconnected state. -/
theorem c5_disconnected_witness :
    handleSendMessage (mkState [] none false false) "hi" "1" =
      (mkState [] none false false, [])
    ∧ handleSequenceUpdate (mkState [] none false false) [] =
      (mkState [] none false false, [])
    ∧ emitEvent true false OutEvent.get_chat_history =
        { emitted := [OutEvent.get_chat_history], warned := true,
          returned := true }
    ∧ emitEvent false false OutEvent.get_chat_history =
        { emitted := [], warned := false, returned := false } :=
  c5_disconnected (mkState [] none false false) "hi" "1" []
    OutEvent.get_chat_history rfl

/-- C7: a local sequence update applied while connected with an existing
sequence keeps the metadata unchanged, replaces only the steps, and
emits exactly one `sequence_update` event carrying the full new step
array. -/
theorem c7_sequence_update (st : AppState) (q : Sequence)
    (steps' : List SequenceStep) (hc : st.isConnected = true)
    (hq : st.sequence = some q) :
    handleSequenceUpdate st steps' =
      (mkState st.messages (some { metadata := q.metadata, steps := steps' })
         st.isConnected st.isLoading,
       [OutEvent.sequence_update steps']) := by
  simp [handleSequenceUpdate, mkState, hc, hq]

/-- C7 witness: a concrete connected update. -/
theorem c7_sequence_update_witness :
    handleSequenceUpdate
      (mkState [] (some { metadata := defaultMetadata "t", steps := [] }) true false)
      [initialNewStep "9"] =
      (mkState [] (some { metadata := defaultMetadata "t", steps := [initialNewStep "9"] })
         true false,
       [OutEvent.sequence_update [initialNewStep "9"]]) :=
  c7_sequence_update _ { metadata := defaultMetadata "t", steps := [] } _ rfl rfl

end Helix

namespace Helix

/-- C10: a `step_refined` event with a missing or empty `step_id` or
`refined_content`, or arriving when no sequence exists, is silently
ignored (the whole state, messages included, is unchanged); when both
fields are non-empty and a sequence exists, the handler replaces exactly
the matching step's content (other fields and other steps untouched)
and appends one canned refined `ai` Message. -/
theorem c10_step_refined (st : AppState) (d : StepRefinedData) (now : String) :
    ((d.step_id = none ∨ d.step_id = some "" ∨ d.refined_content = none ∨
        d.refined_content = some "" ∨ st.sequence = none) →
      stepRefined st d now = st)
    ∧ (∀ sid rc q, d.step_id = some sid → sid ≠ "" →
        d.refined_content = some rc → rc ≠ "" → st.sequence = some q →
        stepRefined st d now =
          mkState (st.messages ++ [aiMsg now refinedText])
            (some { metadata := q.metadata,
                    steps := q.steps.map (fun s =>
                      if s.id = sid then
                        { id := s.id, type := s.type, content := rc,
                          delay := s.delay,
                          personalization_tips := s.personalization_tips }
                      else s) })
            st.isConnected st.isLoading) := by
  constructor
  · rintro (h | h | h | h | h) <;>
      · obtain ⟨si, rc⟩ := d
        cases si <;> cases rc <;> cases hsq : st.sequence <;>
          simp_all [stepRefined]
  · intro sid rc q h1 h2 h3 h4 h5
    simp [stepRefined, h1, h2, h3, h4, h5, mkState]

/-- C10 witness: a concrete refinement applied to the matching step. -/
theorem c10_step_refined_witness :
    stepRefined
      (mkState []
        (some { metadata := defaultMetadata "t",
                steps := [{ id := "1", type := "email", content := "old",
                            delay := 0, personalization_tips := none }] })
        true false)
      { step_id := some "1", refined_content := some "new" } "9" =
      mkState [aiMsg "9" refinedText]
        (some { metadata := defaultMetadata "t",
                steps := [{ id := "1", type := "email", content := "new",
                            delay := 0, personalization_tips := none }] })
        true false := by
  have h :=
    (c10_step_refined
      (mkState []
        (some { metadata := defaultMetadata "t",
                steps := [{ id := "1", type := "email", content := "old",
                            delay := 0, personalization_tips := none }] })
        true false)
      { step_id := some "1", refined_content := some "new" } "9").2
      "1" "new" _ rfl (by decide) rfl (by decide) rfl
  simpa using h

end Helix

namespace Helix

/-- C9: the CSV round-trip on header `name,email,role` with data row
`Ann,ann@x.com,Eng` yields exactly the Candidate
`\x7bname: Ann, email: ann@x.com, role: Eng\x7d` (in file order), and every
row the parser keeps has non-empty `name` and `email` fields. -/
theorem c9_parseCSV :
    parseCSV "name,email,role\nAnn,ann@x.com,Eng" =
      [[("name", "Ann"), ("email", "ann@x.com"), ("role", "Eng")]]
    ∧ ∀ text c, c ∈ parseCSV text →
        getField c "name" ≠ "" ∧ getField c "email" ≠ "" := by
  refine ⟨by decide, ?_⟩
  intro text c hc
  simp only [parseCSV, List.mem_filterMap] at hc
  obtain ⟨line, -, hline⟩ := hc
  split at hline
  · exact absurd hline (by simp)
  · split at hline
    · rename_i hkeep
      obtain rfl := Option.some.inj hline
      simp only [Bool.and_eq_true, decide_eq_true_eq] at hkeep
      simpa using hkeep
    · exact absurd hline (by simp)

/-- C9 witness: the kept row of the round-trip satisfies the filter
condition. -/
theorem c9_parseCSV_witness :
    getField [("name", "Ann"), ("email", "ann@x.com"), ("role", "Eng")] "name" ≠ ""
    ∧ getField [("name", "Ann"), ("email", "ann@x.com"), ("role", "Eng")] "email" ≠ "" :=
  c9_parseCSV.2 "name,email,role\nAnn,ann@x.com,Eng" _ (by decide)

end Helix

namespace Helix

/-- When a pattern does not occur in a string, global replacement (at any
fuel) leaves the string unchanged. -/
theorem replaceAllAux_of_not_occursIn (pat rep : List Char) :
    ∀ (n : Nat) (s : List Char), occursIn pat s = false →
      replaceAllAux pat rep n s = s := by
  intro n
  induction n with
  | zero => intro s _; rfl
  | succ n ih =>
    intro s h
    cases s with
    | nil => rfl
    | cons c rest =>
      simp only [occursIn, Bool.or_eq_false_iff] at h
      simp only [replaceAllAux, h.1, Bool.and_false, if_neg Bool.false_ne_true]
      exact congrArg (c :: ·) (ih rest h.2)

/-- When a pattern does not occur, `replaceAllL` is the identity. -/
theorem replaceAllL_of_not_occursIn (pat rep s : List Char)
    (h : occursIn pat s = false) : replaceAllL pat rep s = s :=
  replaceAllAux_of_not_occursIn pat rep s.length s h

/-- A template containing none of the candidate's placeholders is a
fixed point of `personalize`. -/
theorem personalize_of_not_occursIn (c : Candidate) (t : String)
    (h : ∀ kv ∈ c, occursIn (placeholderOf kv.1) t.toList = false) :
    personalize t c = t := by
  induction c with
  | nil => rfl
  | cons kv rest ih =>
    have hstep :
        String.mk (replaceAllL (placeholderOf kv.1) kv.2.toList t.toList) = t := by
      rw [replaceAllL_of_not_occursIn _ _ _ (h kv (by simp))]
      rfl
    have h1 : personalize t (kv :: rest) =
        personalize
          (String.mk (replaceAllL (placeholderOf kv.1) kv.2.toList t.toList))
          rest := rfl
    rw [h1, hstep]
    exact ih (fun kv' hkv' => h kv' (by simp [hkv']))

/-- C8 counterexample: with candidate entries `a ↦ \x7bb\x7d` and `b ↦ X`,
the template `\x7ba\x7d` personalizes to `X` rather than to the record value
`\x7bb\x7d` of key `a` — substitution is sequential, so an occurrence of
`\x7ba\x7d` is not (in the final output) replaced by the corresponding
record value. -/
theorem c8_counterexample :
    personalize "{a}" [("a", "{b}"), ("b", "X")] = "X"
    ∧ "X" ≠ "{b}" := by decide

/-- C8 (amended): substitution proceeds sequentially over the record's
entries in object order (each pass replaces all occurrences of that
entry's placeholder in the intermediate string), so a value that itself
contains a later entry's placeholder is substituted again;
personalization is purely functional and idempotent on its own output
whenever that output contains no remaining placeholder of any record
key. -/
theorem c8_personalize_idempotent (s : String) (c : Candidate)
    (h : ∀ kv ∈ c, occursIn (placeholderOf kv.1) (personalize s c).toList = false) :
    personalize (personalize s c) c = personalize s c :=
  personalize_of_not_occursIn c (personalize s c) h

/-- C8 witness: a concrete fully-substituted output. -/
theorem c8_personalize_idempotent_witness :
    personalize (personalize "Hi {name}" [("name", "Ann")]) [("name", "Ann")] =
      personalize "Hi {name}" [("name", "Ann")] :=
  c8_personalize_idempotent "Hi {name}" [("name", "Ann")] (by decide)

end Helix

namespace Helix

/-- C6 counterexample: the id of an added step is the raw clock value
`Date.now().toString()`, which is not guaranteed fresh: adding to a
sequence whose only step already has id `99` at clock value `99` yields
two steps with the same id, so distinctness of ids is not preserved by
the add operation as the claim states. -/
theorem c6_counterexample :
    handleSaveStep
        (some { metadata := defaultMetadata "t",
                steps := [{ id := "99", type := "email", content := "hi",
                            delay := 0, personalization_tips := none }] })
        none
        { id := "x", type := "email", content := "yo", delay := 0,
          personalization_tips := some "" }
        "99" =
      some [{ id := "99", type := "email", content := "hi", delay := 0,
              personalization_tips := none },
            { id := "99", type := "email", content := "yo", delay := 0,
              personalization_tips := some "" }]
    ∧ ¬ (List.map SequenceStep.id
          [{ id := "99", type := "email", content := "hi", delay := 0,
             personalization_tips := none },
            { id := "99", type := "email", content := "yo", delay := 0,
              personalization_tips := some "" }]).Nodup := by decide

/-- C6 (amended): starting from pairwise-distinct step ids, delete always
preserves distinctness; edit (whose dialog flow keeps the edited step's
id) preserves the id list exactly; add appends a new step whose id is
the clock value `now` and preserves distinctness provided `now` differs
from every existing id (two adds in the same millisecond, or a step
whose id equals the clock value, collide); add and edit require
non-empty content, and the dialog's defaults are type `email` and delay
`0`. -/
theorem c6_editor_ops (q : Sequence) (editingStep : Option SequenceStep)
    (e newStep : SequenceStep) (did now : String)
    (hNodup : (q.steps.map SequenceStep.id).Nodup) :
    (∀ l, handleDeleteStep (some q) did = some l →
      (l.map SequenceStep.id).Nodup)
    ∧ (newStep.id = e.id → ∀ l,
        handleSaveStep (some q) (some e) newStep now = some l →
        l.map SequenceStep.id = q.steps.map SequenceStep.id
        ∧ (l.map SequenceStep.id).Nodup)
    ∧ (newStep.content ≠ "" → now ∉ q.steps.map SequenceStep.id →
        handleSaveStep (some q) none newStep now =
          some (q.steps ++ [{ newStep with id := now }])
        ∧ ((q.steps ++ [{ newStep with id := now }]).map SequenceStep.id).Nodup)
    ∧ (newStep.content = "" →
        handleSaveStep (some q) editingStep newStep now = none)
    ∧ (initialNewStep now).type = "email" ∧ (initialNewStep now).delay = 0 := by
  refine ⟨?_, ?_, ?_, ?_, rfl, rfl⟩
  · intro l hl
    simp only [handleDeleteStep, Option.some.injEq] at hl
    subst hl
    exact List.Nodup.sublist ((List.filter_sublist _).map _) hNodup
  · intro hid l hl
    by_cases hc : newStep.content = ""
    · simp [handleSaveStep, hc] at hl
    · simp only [handleSaveStep, if_neg hc, Option.some.injEq] at hl
      subst hl
      have hptwise : ∀ s : SequenceStep,
          ((fun s => if s.id = e.id then mergeStep s newStep else s) s).id
            = s.id := by
        intro s
        by_cases h : s.id = e.id <;> simp [mergeStep, h, hid]
      have hmap :
          (q.steps.map (fun s =>
              if s.id = e.id then mergeStep s newStep else s)).map
            SequenceStep.id = q.steps.map SequenceStep.id := by
        rw [List.map_map]
        exact List.map_congr_left (fun s _ => hptwise s)
      exact ⟨hmap, hmap ▸ hNodup⟩
  · intro hc hnow
    refine ⟨by simp [handleSaveStep, hc], ?_⟩
    have hmap : ((q.steps ++ [{ newStep with id := now }]).map SequenceStep.id)
        = q.steps.map SequenceStep.id ++ [now] := by simp
    rw [hmap]
    simp [List.nodup_append, hNodup, hnow]
  · intro hc
    cases editingStep <;> simp [handleSaveStep, hc]

/-- C6 witness: a concrete add with a non-colliding clock value. -/
theorem c6_editor_ops_witness :
    handleSaveStep
        (some { metadata := defaultMetadata "t",
                steps := [{ id := "1", type := "email", content := "hi",
                            delay := 0, personalization_tips := none }] })
        none
        { id := "x", type := "email", content := "yo", delay := 0,
          personalization_tips := some "" }
        "2" =
      some [{ id := "1", type := "email", content := "hi", delay := 0,
              personalization_tips := none },
            { id := "2", type := "email", content := "yo", delay := 0,
              personalization_tips := some "" }]
    ∧ (([{ id := "1", type := "email", content := "hi", delay := 0,
           personalization_tips := none },
          ({ id := "2", type := "email", content := "yo", delay := 0,
             personalization_tips := some "" } : SequenceStep)].map
          SequenceStep.id)).Nodup := by
  have h :=
    ((c6_editor_ops
      { metadata := defaultMetadata "t",
        steps := [{ id := "1", type := "email", content := "hi",
                    delay := 0, personalization_tips := none }] }
      none (initialNewStep "0")
      { id := "x", type := "email", content := "yo", delay := 0,
        personalization_tips := some "" }
      "1" "2" (by decide)).2.2.1) (by decide) (by decide)
  exact ⟨h.1, h.2⟩

end Helix

namespace Helix

/-- C3 counterexample: an envelope with `status = success` and the
`chat_response` field present but equal to the empty string appends no
Message at all (JS truthiness treats the present-but-empty field as
absent), refuting "exactly one Message with that text is appended" for
a present `chat_response` field. -/
theorem c3_counterexample :
    (chatResponse (mkState [] none true true)
        (some { status := some "success", chat_response := some "",
                llm_response := none, tool_result := none, error := none })
        "1").1.messages = [] := by decide

/-- C3 (amended): for every `chat_response` envelope with
`status = "success"` and a present, non-empty `chat_response` text,
processing the event appends exactly one `ai` Message carrying that
text — no branch appends a second Message — and emits nothing. -/
theorem c3_success_chat (st : AppState) (env : Envelope) (now t : String)
    (hs : env.status = some "success") (hc : env.chat_response = some t)
    (ht : t ≠ "") :
    (chatResponse st (some env) now).1.messages =
      st.messages ++ [aiMsg now t]
    ∧ (chatResponse st (some env) now).2 = [] := by
  have htr : truthyStr env.chat_response = true := by simp [truthyStr, hc, ht]
  constructor <;>
  · simp only [chatResponse, hs, hc, htr, Option.getD_some, Bool.not_true,
      Bool.and_false, if_true, ite_true, reduceIte, ite_self]
    repeat' split
    all_goals simp_all [truthyStr]

/-- C3 witness: a concrete successful envelope with chat text. -/
theorem c3_success_chat_witness :
    (chatResponse (mkState [] none true true)
        (some { status := some "success", chat_response := some "hi",
                llm_response := none, tool_result := none, error := none })
        "1").1.messages = [aiMsg "1" "hi"]
    ∧ (chatResponse (mkState [] none true true)
        (some { status := some "success", chat_response := some "hi",
                llm_response := none, tool_result := none, error := none })
        "1").2 = [] :=
  c3_success_chat (mkState [] none true true)
    { status := some "success", chat_response := some "hi",
      llm_response := none, tool_result := none, error := none }
    "1" "hi" rfl rfl (by decide)

/-- C4 counterexample: a success envelope whose `llm_response.action` is
`generate_sequence` and whose `tool_result` string fails the nested
JSON decode is swallowed silently — no apology Message is appended —
refuting the claim that every decode failure appends a generic
apology/canned error Message. -/
theorem c4_counterexample :
    (chatResponse (mkState [] none true true)
        (some { status := some "success", chat_response := none,
                llm_response := some { action := some "generate_sequence" },
                tool_result := some { raw := "###", parsed := none },
                error := none })
        "1").1.messages = [] := by decide

/-- C4 (amended): when the envelope itself fails to decode, the client
recovers locally by appending the generic apology Message, clears the
loading flag, does not crash and does not retry (no event emitted);
when only the nested `tool_result` JSON of a `generate_sequence` action
fails to decode, the failure is caught and logged but no Message is
appended — the state is otherwise unchanged, again with no crash and no
retry. -/
theorem c4_decode_failures (st : AppState) (env : Envelope)
    (now raw : String)
    (hs : env.status = some "success")
    (ha : actionIs env "generate_sequence" = true)
    (htr : env.tool_result = some { raw := raw, parsed := none })
    (hraw : raw ≠ "")
    (hcr : truthyStr env.chat_response = false) :
    chatResponse st none now =
      (mkState (st.messages ++ [aiMsg now apologyText]) st.sequence
        st.isConnected false, [])
    ∧ chatResponse st (some env) now =
      (mkState st.messages st.sequence st.isConnected false, []) := by
  constructor
  · simp [chatResponse, mkState]
  · have hb : truthyTool env.tool_result = true := by
      simp [truthyTool, htr, hraw]
    have hbind : env.tool_result.bind ToolResultField.parsed = none := by
      simp [htr]
    simp [chatResponse, hs, ha, hb, hbind, hcr, mkState]

/-- C4 witness: a concrete envelope decode failure and a concrete nested
tool_result decode failure. -/
theorem c4_decode_failures_witness :
    chatResponse (mkState [] none true true) none "1" =
      (mkState [aiMsg "1" apologyText] none true false, [])
    ∧ chatResponse (mkState [] none true true)
        (some { status := some "success", chat_response := none,
                llm_response := some { action := some "generate_sequence" },
                tool_result := some { raw := "###", parsed := none },
                error := none })
        "1" =
      (mkState [] none true false, []) :=
  c4_decode_failures (mkState [] none true true)
    { status := some "success", chat_response := none,
      llm_response := some { action := some "generate_sequence" },
      tool_result := some { raw := "###", parsed := none },
      error := none }
    "1" "###" rfl rfl rfl (by decide) rfl

end Helix
